import Mathlib

/-!
Verification of the SnipLink URL-shortening service (`src/main.go`).

The service keeps a global `urlMap : map[string]string` from short codes to
original URLs, and exposes two handlers:

* `shortenHandler` (`POST /shorten`): rejects non-POST methods with 405,
  rejects bodies that fail to JSON-decode into `URLPair` with 400, otherwise
  generates a 6-character random code, stores `urlMap[code] = original`, and
  answers 200 with `{"short_code": code, "short_url": "http://localhost:8080/" + code}`.
* `redirectHandler` (`GET /{code}`): looks up `r.URL.Path[1:]` in the map and
  answers 404 when absent, else a 307 Temporary Redirect to the stored URL.

We embed the handlers as pure functions over an explicit map state.  The Go
map is modelled as an association list where insertion prepends: with
first-match `List.lookup` this realizes Go's overwrite ("last write wins")
semantics observably.  The process-wide random source consumed by
`rand.Intn(62)` inside `generateShortCode` is modelled as an explicit
argument `Fin 6 → Fin 62` giving the six sampled indices.
-/

namespace SnipLink

/-- The 62-character alphabet of `generateShortCode` (`chars` in `main.go`). -/
def chars : String := "abcdefghijklmnopqrstuvwxyzABCDEFGHIJKLMNOPQRSTUVWXYZ0123456789"

theorem chars_data_length : chars.data.length = 62 := rfl

/-- `generateShortCode` from `main.go`: builds a 6-byte string whose `i`-th
character is `chars[rand.Intn(len(chars))]`.  The six results of
`rand.Intn(62)` (each in `[0, 62)`) are passed in as `rand`. -/
def generateShortCode (rand : Fin 6 → Fin 62) : String :=
  String.mk ((List.finRange 6).map fun i =>
    chars.data.get ((rand i).cast chars_data_length.symm))

/-- The struct `URLPair` from `main.go` (JSON tags `original`, `short_code`). -/
structure URLPair where
  Original : String
  ShortCode : String
  deriving Repr, DecidableEq

/-- JSON values, for modelling the request body handed to
`json.NewDecoder(r.Body).Decode(&urlPair)`. -/
inductive Json where
  | null : Json
  | bool : Bool → Json
  | num : Int → Json
  | str : String → Json
  | arr : List Json → Json
  | obj : List (String × Json) → Json

/-- Decoding one JSON object field into a Go `string` struct field
(`encoding/json` semantics): a missing field or a JSON `null` leaves the
zero value `""`; a JSON string is taken verbatim; any other JSON type is a
decode error. -/
def getStringField (fs : List (String × Json)) (name : String) : Option String :=
  match fs.lookup name with
  | none => some ""
  | some Json.null => some ""
  | some (Json.str s) => some s
  | some _ => none

/-- `encoding/json` decoding of a JSON value into the `URLPair` struct:
`null` succeeds leaving both fields at their zero value, an object decodes
its `original` and `short_code` fields, and any other top-level JSON value
is a decode error. -/
def decodeURLPair : Json → Option URLPair
  | Json.null => some ⟨"", ""⟩
  | Json.obj fs =>
      match getStringField fs "original", getStringField fs "short_code" with
      | some o, some sc => some ⟨o, sc⟩
      | _, _ => none
  | _ => none

/-- An incoming HTTP request, as far as the handlers inspect it: the method,
the URL path, and the body.  `body = none` stands for a body that is not a
single well-formed JSON value (including an empty body). -/
structure Request where
  method : String
  path : String
  body : Option Json

/-- The result of `json.NewDecoder(r.Body).Decode(&urlPair)`: fails when the
body is not well-formed JSON or when the JSON value does not fit `URLPair`. -/
def decodeBody (body : Option Json) : Option URLPair :=
  body.bind decodeURLPair

/-- The observable response a handler writes: an `http.Error` with a status
and plain-text message, the 200 JSON success body of `shortenHandler`, or
an `http.Redirect` carrying the `Location` URL. -/
inductive Response where
  | error : Nat → String → Response
  | ok : String → String → Response
  | redirect : String → Response
  deriving Repr, DecidableEq

/-- The HTTP status code of a response. `http.StatusTemporaryRedirect = 307`. -/
def Response.status : Response → Nat
  | Response.error s _ => s
  | Response.ok _ _ => 200
  | Response.redirect _ => 307

/-- The `Location` header of a response (set only by `http.Redirect`). -/
def Response.location : Response → Option String
  | Response.redirect url => some url
  | _ => none

/-- The `short_code` field of the 200 JSON body, when present. -/
def Response.shortCode : Response → Option String
  | Response.ok c _ => some c
  | _ => none

/-- The `short_url` field of the 200 JSON body, when present. -/
def Response.shortUrl : Response → Option String
  | Response.ok _ u => some u
  | _ => none

/-- The global `urlMap : map[string]string`, as an association list.
Insertion prepends, and `List.lookup` takes the first match, so the newest
binding for a key wins — exactly Go's assignment semantics, observably. -/
abbrev UrlMap := List (String × String)

/-- `urlMap[shortCode] = originalURL` from `main.go`. -/
def UrlMap.insert (k v : String) (m : UrlMap) : UrlMap := (k, v) :: m

/-- `originalURL, exists := urlMap[shortCode]` from `main.go`. -/
def UrlMap.lookup (m : UrlMap) (k : String) : Option String :=
  List.lookup k m

/-- `shortenHandler` from `main.go`, as a function from the request, the
random draws consumed by `generateShortCode`, and the current map to the
response and the updated map. -/
def shortenHandler (r : Request) (rand : Fin 6 → Fin 62) (m : UrlMap) :
    Response × UrlMap :=
  if r.method ≠ "POST" then
    (Response.error 405 "Method not allowed", m)
  else
    match decodeBody r.body with
    | none => (Response.error 400 "Invalid request body", m)
    | some urlPair =>
        let shortCode := generateShortCode rand
        (Response.ok shortCode ("http://localhost:8080/" ++ shortCode),
         m.insert shortCode urlPair.Original)

/-- `redirectHandler` from `main.go`: the lookup key is `r.URL.Path[1:]`,
a miss is a 404, a hit is `http.Redirect(..., http.StatusTemporaryRedirect)`.
It never writes to the map, so the state component is returned unchanged. -/
def redirectHandler (r : Request) (m : UrlMap) : Response × UrlMap :=
  let shortCode := r.path.drop 1
  match m.lookup shortCode with
  | none => (Response.error 404 "Short code not found", m)
  | some originalURL => (Response.redirect originalURL, m)

/-- `htmlEscape` from `net/http` (used by `http.Redirect` on the URL it
embeds in the courtesy body): replaces the five HTML-special characters by
their entity references. -/
def htmlEscapeChar (c : Char) : List Char :=
  if c = '&' then "&amp;".data
  else if c = '<' then "&lt;".data
  else if c = '>' then "&gt;".data
  else if c = '"' then "&#34;".data
  else if c = '\'' then "&#39;".data
  else [c]

def htmlEscape (s : String) : String :=
  String.mk (s.data.map htmlEscapeChar).flatten

/-- The method-dependent part of what `net/http`'s `Redirect` writes on a
hit: when the handler has set no Content-Type and `r.Method == "GET"`, it
sets `Content-Type: text/html; charset=utf-8` and writes a small HTML
anchor body naming the status text; for every other method it writes
neither.  (URL resolution and `hexEscapeNonASCII` on the `Location` value
are method-independent and stay abstracted away, as in `redirectHandler`.) -/
def redirectMethodExtras (method url : String) : Option (String × String) :=
  if method = "GET" then
    some ("text/html; charset=utf-8",
          "<a href=\"" ++ htmlEscape url ++ "\">Temporary Redirect</a>.\n")
  else none

/-- `redirectHandler` refined with the method-dependent components of the
response: the `Response` and map as in `redirectHandler`, plus, on a hit,
the Content-Type header and HTML body `http.Redirect` writes only for GET
(`http.Error`'s miss output never depends on the method). -/
def redirectHandlerFull (r : Request) (m : UrlMap) :
    Response × Option (String × String) × UrlMap :=
  let res := redirectHandler r m
  (res.1,
   match res.1 with
   | Response.redirect url => redirectMethodExtras r.method url
   | _ => none,
   res.2)

/-- States reachable from the initial empty `urlMap` by any sequence of
handler invocations. -/
inductive Reachable : UrlMap → Prop
  | init : Reachable []
  | shorten (req : Request) (rand : Fin 6 → Fin 62) {m : UrlMap} :
      Reachable m → Reachable (shortenHandler req rand m).2
  | redirect (req : Request) {m : UrlMap} :
      Reachable m → Reachable (redirectHandler req m).2

/-! ### Helper lemmas -/

theorem drop_one_append (c : String) : ("/" ++ c).drop 1 = c := by
  simp [String.drop_eq, String.data_append]

theorem generateShortCode_length (rand : Fin 6 → Fin 62) :
    (generateShortCode rand).length = 6 := by
  show ((List.finRange 6).map _).length = 6
  simp

theorem generateShortCode_mem_chars (rand : Fin 6 → Fin 62) :
    ∀ ch ∈ (generateShortCode rand).data, ch ∈ chars.data := by
  intro ch hch
  obtain ⟨i, -, rfl⟩ := List.mem_map.mp hch
  exact List.get_mem _ _ _

theorem lookup_insert_self (k v : String) (m : UrlMap) :
    (m.insert k v).lookup k = some v := by
  simp [UrlMap.insert, UrlMap.lookup, List.lookup]

theorem lookup_eq_none_of_keys_ne (m : UrlMap) (k : String)
    (h : ∀ p ∈ m, p.1 ≠ k) : m.lookup k = none := by
  induction m with
  | nil => rfl
  | cons p t ih =>
      obtain ⟨k1, v1⟩ := p
      have h1 : k1 ≠ k := h (k1, v1) (List.mem_cons_self _ _)
      have hbeq : (k == k1) = false := by
        simp only [beq_eq_false_iff_ne]
        exact fun e => h1 e.symm
      simp only [UrlMap.lookup, List.lookup, hbeq]
      exact ih fun q hq => h q (List.mem_cons_of_mem _ hq)

theorem redirectHandler_snd (req : Request) (m : UrlMap) :
    (redirectHandler req m).2 = m := by
  unfold redirectHandler
  cases h : m.lookup (req.path.drop 1) <;> simp [h]

theorem shortenHandler_snd (req : Request) (rand : Fin 6 → Fin 62) (m : UrlMap) :
    (shortenHandler req rand m).2 = m ∨
    ∃ v, (shortenHandler req rand m).2 = m.insert (generateShortCode rand) v := by
  unfold shortenHandler
  split
  · exact Or.inl rfl
  · cases h : decodeBody req.body with
    | none => simp [h]
    | some up => exact Or.inr ⟨up.Original, by simp [h]⟩

theorem reachable_keys_length (m : UrlMap) (hm : Reachable m) :
    ∀ p ∈ m, p.1.length = 6 := by
  induction hm with
  | init => intro p hp; cases hp
  | shorten req rand _ ih =>
      rcases shortenHandler_snd req rand _ with h | ⟨v, h⟩
      · rw [h]; exact ih
      · rw [h]
        intro p hp
        rcases List.mem_cons.mp hp with hp | hp
        · rw [hp]; exact generateShortCode_length rand
        · exact ih p hp
  | redirect req _ ih =>
      rw [redirectHandler_snd]; exact ih

/-! ### Claim theorems -/

/-- C2: every call of `generateShortCode` returns a string of length exactly
6 whose characters all come from the 62-character alphanumeric alphabet
(a-z, A-Z, 0-9). -/
theorem generateShortCode_length_alphanum (rand : Fin 6 → Fin 62) :
    (generateShortCode rand).length = 6 ∧
    chars.data.length = 62 ∧ chars.data.Nodup ∧
    ∀ ch ∈ (generateShortCode rand).data, ch ∈ chars.data ∧ ch.isAlphanum := by
  refine ⟨generateShortCode_length rand, chars_data_length, by decide, ?_⟩
  intro ch hch
  refine ⟨generateShortCode_mem_chars rand ch hch, ?_⟩
  have halpha : ∀ c ∈ chars.data, c.isAlphanum := by decide
  exact halpha ch (generateShortCode_mem_chars rand ch hch)

/-- C3: a POST `/shorten` whose body decodes into `URLPair` stores
`(generated code ↦ submitted original URL)` in the map and answers 200 with
`short_code` the generated code and `short_url` equal to
`"http://localhost:8080/" ++ short_code`. -/
theorem shortenHandler_success (req : Request) (rand : Fin 6 → Fin 62)
    (m : UrlMap) (up : URLPair)
    (hm : req.method = "POST") (hb : decodeBody req.body = some up) :
    shortenHandler req rand m =
      (Response.ok (generateShortCode rand)
        ("http://localhost:8080/" ++ generateShortCode rand),
       m.insert (generateShortCode rand) up.Original) ∧
    (shortenHandler req rand m).1.status = 200 ∧
    (shortenHandler req rand m).2.lookup (generateShortCode rand) =
      some up.Original := by
  have h : shortenHandler req rand m =
      (Response.ok (generateShortCode rand)
        ("http://localhost:8080/" ++ generateShortCode rand),
       m.insert (generateShortCode rand) up.Original) := by
    simp [shortenHandler, hm, hb]
  refine ⟨h, ?_, ?_⟩
  · rw [h]; rfl
  · rw [h]; exact lookup_insert_self _ _ m

/-- Witness for C3 at a concrete request, random draw and map. -/
theorem shortenHandler_success_witness :
    (shortenHandler
      ⟨"POST", "/shorten", some (Json.obj [("original", Json.str "http://example.com")])⟩
      (fun _ => 0) []).1.status = 200 :=
  (shortenHandler_success
    ⟨"POST", "/shorten", some (Json.obj [("original", Json.str "http://example.com")])⟩
    (fun _ => 0) [] ⟨"http://example.com", ""⟩ rfl (by rfl)).2.1

/-- C5: any request to `/shorten` whose method is not POST gets a 405, and
the handler neither reads the body, nor draws random indices, nor touches
the map: the result is the same for every body and every random draw. -/
theorem shortenHandler_non_post (req : Request) (rand : Fin 6 → Fin 62)
    (m : UrlMap) (hm : req.method ≠ "POST") :
    shortenHandler req rand m = (Response.error 405 "Method not allowed", m) ∧
    (shortenHandler req rand m).1.status = 405 ∧
    ∀ (rand' : Fin 6 → Fin 62) (body' : Option Json),
      shortenHandler { req with body := body' } rand' m =
        shortenHandler req rand m := by
  have h : ∀ (randA : Fin 6 → Fin 62) (bodyA : Option Json),
      shortenHandler { req with body := bodyA } randA m =
        (Response.error 405 "Method not allowed", m) := by
    intro randA bodyA
    simp [shortenHandler, hm]
  refine ⟨?_, ?_, ?_⟩
  · have := h rand req.body
    simpa using this
  · have := h rand req.body
    simp at this
    rw [this]; rfl
  · intro rand' body'
    rw [h rand' body']
    have := h rand req.body
    simpa using this.symm

/-- Witness for C5 at a concrete GET request to `/shorten`. -/
theorem shortenHandler_non_post_witness :
    shortenHandler ⟨"GET", "/shorten", none⟩ (fun _ => 0) [] =
      (Response.error 405 "Method not allowed", []) :=
  (shortenHandler_non_post ⟨"GET", "/shorten", none⟩ (fun _ => 0) []
    (by decide)).1

/-- C6: a POST `/shorten` whose body fails to decode into `URLPair` gets a
400 and the map is unchanged. -/
theorem shortenHandler_bad_json (req : Request) (rand : Fin 6 → Fin 62)
    (m : UrlMap) (hm : req.method = "POST") (hb : decodeBody req.body = none) :
    shortenHandler req rand m = (Response.error 400 "Invalid request body", m) ∧
    (shortenHandler req rand m).1.status = 400 := by
  have h : shortenHandler req rand m =
      (Response.error 400 "Invalid request body", m) := by
    simp [shortenHandler, hm, hb]
  exact ⟨h, by rw [h]; rfl⟩

/-- Witness for C6: a POST with a body that is not well-formed JSON. -/
theorem shortenHandler_bad_json_witness :
    shortenHandler ⟨"POST", "/shorten", none⟩ (fun _ => 0) [("abc", "u")] =
      (Response.error 400 "Invalid request body", [("abc", "u")]) :=
  (shortenHandler_bad_json ⟨"POST", "/shorten", none⟩ (fun _ => 0)
    [("abc", "u")] rfl rfl).1

/-- C9 counterexample: the full response of the redirect operation is not
method-independent — on a hit, `http.Redirect` sets a Content-Type header
and writes an HTML body only when the method is GET, so a POST to a stored
code produces a different response from the GET to the same path. -/
theorem redirect_method_counterexample :
    redirectHandlerFull ⟨"POST", "/abc", none⟩ [("abc", "http://example.com")] ≠
      redirectHandlerFull ⟨"GET", "/abc", none⟩ [("abc", "http://example.com")] := by
  decide

/-- C9 (amended): the redirect operation ignores the request method (and
body) for everything except the courtesy Content-Type header and HTML body
that `http.Redirect` writes only for GET: for every method and path, the
status, the `Location` header, the error text on a miss, and the resulting
map all equal those of the GET request with the same path — a POST, PUT or
DELETE to `/{code}` redirects or 404s like a GET. -/
theorem redirectHandler_ignores_method_core (method path : String)
    (body body' : Option Json) (m : UrlMap) :
    (redirectHandlerFull ⟨method, path, body⟩ m).1 =
      (redirectHandlerFull ⟨"GET", path, body'⟩ m).1 ∧
    (redirectHandlerFull ⟨method, path, body⟩ m).2.2 =
      (redirectHandlerFull ⟨"GET", path, body'⟩ m).2.2 := by
  have h : redirectHandler ⟨method, path, body⟩ m =
      redirectHandler ⟨"GET", path, body'⟩ m := rfl
  constructor
  · show (redirectHandler ⟨method, path, body⟩ m).1 =
      (redirectHandler ⟨"GET", path, body'⟩ m).1
    rw [h]
  · show (redirectHandler ⟨method, path, body⟩ m).2 =
      (redirectHandler ⟨"GET", path, body'⟩ m).2
    rw [h]

/-- C1: round trip — after a successful POST `/shorten`, the response
carries a short code `c`, and a GET whose path is `"/" ++ c` against the
resulting map yields a 307 Temporary Redirect whose `Location` header is the
submitted original URL. -/
theorem roundtrip_shorten_redirect (req : Request) (rand : Fin 6 → Fin 62)
    (m : UrlMap) (up : URLPair)
    (hm : req.method = "POST") (hb : decodeBody req.body = some up) :
    ∃ c : String,
      (shortenHandler req rand m).1.shortCode = some c ∧
      (redirectHandler ⟨"GET", "/" ++ c, none⟩ (shortenHandler req rand m).2).1.status
        = 307 ∧
      (redirectHandler ⟨"GET", "/" ++ c, none⟩ (shortenHandler req rand m).2).1.location
        = some up.Original := by
  obtain ⟨heq, -, -⟩ := shortenHandler_success req rand m up hm hb
  refine ⟨generateShortCode rand, ?_, ?_, ?_⟩ <;>
    rw [heq] <;>
    simp [redirectHandler, drop_one_append, lookup_insert_self,
      Response.shortCode, Response.status, Response.location]

/-- Witness for C1 at a concrete request, random draw and map. -/
theorem roundtrip_shorten_redirect_witness :
    ∃ c : String,
      (shortenHandler
        ⟨"POST", "/shorten", some (Json.obj [("original", Json.str "http://example.com")])⟩
        (fun _ => 0) []).1.shortCode = some c ∧
      (redirectHandler ⟨"GET", "/" ++ c, none⟩
        (shortenHandler
          ⟨"POST", "/shorten", some (Json.obj [("original", Json.str "http://example.com")])⟩
          (fun _ => 0) []).2).1.status = 307 ∧
      (redirectHandler ⟨"GET", "/" ++ c, none⟩
        (shortenHandler
          ⟨"POST", "/shorten", some (Json.obj [("original", Json.str "http://example.com")])⟩
          (fun _ => 0) []).2).1.location = some "http://example.com" :=
  roundtrip_shorten_redirect
    ⟨"POST", "/shorten", some (Json.obj [("original", Json.str "http://example.com")])⟩
    (fun _ => 0) [] ⟨"http://example.com", ""⟩ rfl (by rfl)

/-- C4: for every request, `redirectHandler` keys the map on the path with
its leading slash removed; the response is 404 exactly when that key is
absent, and a hit is a 307 redirect to the stored URL with the map
untouched. -/
theorem redirectHandler_spec (req : Request) (m : UrlMap) :
    ((redirectHandler req m).1.status = 404 ↔
      m.lookup (req.path.drop 1) = none) ∧
    ∀ url, m.lookup (req.path.drop 1) = some url →
      redirectHandler req m = (Response.redirect url, m) ∧
      (redirectHandler req m).1.status = 307 ∧
      (redirectHandler req m).1.location = some url := by
  unfold redirectHandler
  cases h : m.lookup (req.path.drop 1) <;>
    simp [h, Response.status, Response.location]

/-- Witness for C4: a hit on a concrete one-entry map. -/
theorem redirectHandler_spec_witness :
    redirectHandler ⟨"GET", "/abc", none⟩ [("abc", "http://example.com")] =
      (Response.redirect "http://example.com", [("abc", "http://example.com")]) :=
  ((redirectHandler_spec ⟨"GET", "/abc", none⟩
    [("abc", "http://example.com")]).2 "http://example.com" (by rfl)).1

/-- C7: in every state reachable from the empty map, all stored codes have
length 6, so the empty string is never a key and a GET of the root path `/`
(whatever the method and body) answers 404. -/
theorem root_path_404 (method : String) (body : Option Json) (m : UrlMap)
    (hm : Reachable m) :
    (∀ p ∈ m, p.1.length = 6) ∧
    m.lookup "" = none ∧
    (redirectHandler ⟨method, "/", body⟩ m).1.status = 404 := by
  have hkeys := reachable_keys_length m hm
  have hnone : m.lookup "" = none := by
    refine lookup_eq_none_of_keys_ne m "" fun p hp he => ?_
    have := hkeys p hp
    rw [he] at this
    exact absurd this (by decide)
  refine ⟨hkeys, hnone, ?_⟩
  have hdrop : ("/" : String).drop 1 = "" := rfl
  simp [redirectHandler, hdrop, hnone, Response.status]

/-- Witness for C7 at the initial empty map. -/
theorem root_path_404_witness :
    (redirectHandler ⟨"GET", "/", none⟩ []).1.status = 404 :=
  (root_path_404 "GET" none [] Reachable.init).2.2

/-- C8: the map only grows, and only via shorten — `redirectHandler` returns
the map unchanged on both outcomes, `shortenHandler` leaves it unchanged on
its 405 and 400 paths, and neither handler ever removes an existing key. -/
theorem map_grows_only_via_shorten (req : Request) (rand : Fin 6 → Fin 62)
    (m : UrlMap) :
    (redirectHandler req m).2 = m ∧
    (req.method ≠ "POST" → (shortenHandler req rand m).2 = m) ∧
    (decodeBody req.body = none → (shortenHandler req rand m).2 = m) ∧
    ∀ k, (m.lookup k).isSome →
      ((shortenHandler req rand m).2.lookup k).isSome ∧
      ((redirectHandler req m).2.lookup k).isSome := by
  refine ⟨redirectHandler_snd req m, ?_, ?_, ?_⟩
  · intro hm; simp [shortenHandler, hm]
  · intro hb
    unfold shortenHandler
    split
    · rfl
    · simp [hb]
  · intro k hk
    constructor
    · rcases shortenHandler_snd req rand m with h | ⟨v, h⟩
      · rw [h]; exact hk
      · rw [h]
        by_cases hkc : k = generateShortCode rand
        · subst hkc; rw [lookup_insert_self]; rfl
        · have hbeq : (k == generateShortCode rand) = false := by
            simp only [beq_eq_false_iff_ne]; exact hkc
          simpa [UrlMap.insert, UrlMap.lookup, List.lookup, hbeq] using hk
    · rw [redirectHandler_snd req m]; exact hk

/-- Witness for C8: the 405 path preserves a concrete map, and a shorten on
a concrete map keeps its existing key. -/
theorem map_grows_only_via_shorten_witness :
    (shortenHandler ⟨"GET", "/shorten", none⟩ (fun _ => 0) [("abc", "u")]).2
      = [("abc", "u")] ∧
    ((shortenHandler ⟨"POST", "/shorten", some Json.null⟩ (fun _ => 0)
        [("abc", "u")]).2.lookup "abc").isSome :=
  ⟨(map_grows_only_via_shorten ⟨"GET", "/shorten", none⟩ (fun _ => 0)
      [("abc", "u")]).2.1 (by decide),
   ((map_grows_only_via_shorten ⟨"POST", "/shorten", some Json.null⟩
      (fun _ => 0) [("abc", "u")]).2.2.2 "abc" (by rfl)).1⟩

/-- C10 counterexample: the body `5` is well-formed JSON that lacks an
`"original"` field, yet `json.Decode` rejects it (a JSON number cannot be
unmarshalled into the `URLPair` struct), so the handler answers 400, not
200 — refuting the claim that every well-formed JSON body lacking
`"original"` is accepted. -/
theorem shorten_missing_original_counterexample :
    (shortenHandler ⟨"POST", "/shorten", some (Json.num 5)⟩ (fun _ => 0)
      []).1.status = 400 := rfl

/-- C10 (amended): a POST `/shorten` whose body is well-formed JSON that
decodes into `URLPair` while lacking an `"original"` field (a JSON object
without one, or `null`) is not rejected with 400: it answers 200 and stores
the empty string as the original URL under the generated code. -/
theorem shorten_missing_original (req : Request) (rand : Fin 6 → Fin 62)
    (m : UrlMap) (j : Json) (up : URLPair)
    (hm : req.method = "POST") (hb : req.body = some j)
    (hj : j = Json.null ∨ ∃ fs, j = Json.obj fs ∧ fs.lookup "original" = none)
    (hd : decodeURLPair j = some up) :
    up.Original = "" ∧
    (shortenHandler req rand m).1.status = 200 ∧
    (shortenHandler req rand m).2 = m.insert (generateShortCode rand) "" := by
  have horig : up.Original = "" := by
    rcases hj with rfl | ⟨fs, rfl, hfs⟩
    · cases hd; rfl
    · have ho : getStringField fs "original" = some "" := by
        simp [getStringField, hfs]
      simp only [decodeURLPair, ho] at hd
      cases hsc : getStringField fs "short_code" with
      | none => rw [hsc] at hd; cases hd
      | some sc => rw [hsc] at hd; cases hd; rfl
  have hdb : decodeBody req.body = some up := by
    rw [hb]; exact hd
  obtain ⟨heq, hst, -⟩ := shortenHandler_success req rand m up hm hdb
  refine ⟨horig, hst, ?_⟩
  rw [heq, horig]

/-- Witness for C10 at the concrete body `{}`. -/
theorem shorten_missing_original_witness :
    (shortenHandler ⟨"POST", "/shorten", some (Json.obj [])⟩ (fun _ => 0)
      []).1.status = 200 :=
  (shorten_missing_original ⟨"POST", "/shorten", some (Json.obj [])⟩
    (fun _ => 0) [] (Json.obj []) ⟨"", ""⟩ rfl rfl
    (Or.inr ⟨[], rfl, rfl⟩) (by rfl)).2.1

end SnipLink
